import Mathlib

/-!
Shallow embedding of the school-api repository (Express + Sequelize CRUD
backend): the query-shaping logic of the list endpoints
(`getAllTeachers` in src/controllers/teacher.controller.js,
`getAllStudents` in src/controllers/student.controller.js), the
by-id CRUD handlers, and the auth `login` handler
(src/controllers/auth.controller.js).

Query parameters are modelled as `Option String` (absent = `none`),
JavaScript `parseInt` as a partial decimal parser returning `Option Int`
(`none` = NaN), and Sequelize `include` options as a list of include
nodes naming an associated model with its nested includes.
-/

namespace SchoolApi

/-- The ORM models reachable from the controllers' `include` options. -/
inductive Model where
  | Course
  | Teacher
  | Student
deriving DecidableEq, Repr

/-- One entry of a Sequelize `include` array, e.g.
`{ model: db.Course, include: [{ model: db.Teacher }] }`.
In the source the nested entries carry no further `include` of their own,
so the nesting is one level deep: `nested` lists the models of the inner
include array.  (The source field is called `include`, a Lean keyword.) -/
structure IncludeNode where
  model : Model
  nested : List Model
deriving DecidableEq, Repr

/-- Drop leading whitespace characters. -/
def skipWs : List Char → List Char
  | [] => []
  | c :: cs => if c.isWhitespace then skipWs cs else c :: cs

/-- JavaScript `s.split(',')` on the characters of `s`: splits at every
comma, so `""` gives `[""]` and `","` gives `["", ""]`. -/
def splitCommas : List Char → List (List Char)
  | [] => [[]]
  | c :: cs =>
    if c = ',' then [] :: splitCommas cs
    else
      match splitCommas cs with
      | t :: ts => (c :: t) :: ts
      | [] => [[c]]

/-- JavaScript `r.trim()`: strip whitespace from both ends (the source
only ever feeds ASCII tokens, so ASCII whitespace suffices). -/
def trimChars (cs : List Char) : List Char :=
  skipWs (skipWs cs.reverse).reverse

/-- `populate.split(',').map(r => r.trim())`. -/
def splitTrim (s : String) : List String :=
  (splitCommas s.toList).map (fun cs => String.mk (trimChars cs))

/-- Longest leading run of decimal digits. -/
def leadingDigits : List Char → List Char
  | [] => []
  | c :: cs => if c.isDigit then c :: leadingDigits cs else []

/-- Numeric value of a digit string (most significant first). -/
def digitsVal (ds : List Char) : Nat :=
  ds.foldl (fun a c => a * 10 + (c.toNat - 48)) 0

/-- Decimal digit prefix as a number, `none` when there is no digit. -/
def parseDigits (cs : List Char) : Option Nat :=
  let ds := leadingDigits cs
  if ds = [] then none else some (digitsVal ds)

/-- JavaScript `parseInt(s)` (radix 10) on the characters of `s`:
optional leading whitespace, optional sign, then the longest digit
prefix; NaN (`none`) when no digit follows.  The `0x` hex-prefix form of
`parseInt` is not modelled; no `limit`/`page` claim involves it. -/
def parseIntChars : List Char → Option Int
  | cs =>
    match skipWs cs with
    | '-' :: rest => (parseDigits rest).map (fun n => -(n : Int))
    | '+' :: rest => (parseDigits rest).map (fun n => (n : Int))
    | rest => (parseDigits rest).map (fun n => (n : Int))

/-- `parseInt(q)` where `q` is a possibly-absent query parameter;
`parseInt(undefined)` is NaN. -/
def parseIntJS : Option String → Option Int
  | none => none
  | some s => parseIntChars s.toList

/-- JavaScript `x || d` on a number `x` that may be NaN: NaN and `0`
are falsy, every other number is kept. -/
def jsOrInt (v : Option Int) (d : Int) : Int :=
  match v with
  | none => d
  | some n => if n = 0 then d else n

/-- The raw query string of a list request. -/
structure ListQuery where
  page : Option String
  limit : Option String
  sort : Option String
  populate : Option String

/-- `const limit = parseInt(req.query.limit) || 10`. -/
def effLimit (q : ListQuery) : Int :=
  jsOrInt (parseIntJS q.limit) 10

/-- `const page = parseInt(req.query.page) || 1`. -/
def effPage (q : ListQuery) : Int :=
  jsOrInt (parseIntJS q.page) 1

inductive SortDir where
  | ASC
  | DESC
deriving DecidableEq, Repr

/-- `const sortOrder = req.query.sort === 'desc' ? 'DESC' : 'ASC'`. -/
def sortOrder (sort : Option String) : SortDir :=
  if sort = some "desc" then SortDir.DESC else SortDir.ASC

/-- The include array built by `getAllTeachers` from the trimmed tokens
of `populate`: a `validRelations` object that optionally holds a
`CourseId` entry.  `relations.includes('CourseId')` creates
`{ model: Course, include: [] }`; `relations.includes('StudentId')`
creates the entry if missing and pushes `{ model: Student }` into its
include array; `Object.values` then yields the entry if present. -/
def teacherFromTokens (relations : List String) : List IncludeNode :=
  let courseEntry : Option (List Model) :=
    if relations.contains "CourseId" then some [] else none
  let courseEntry : Option (List Model) :=
    if relations.contains "StudentId" then
      some (courseEntry.getD [] ++ [Model.Student])
    else courseEntry
  match courseEntry with
  | none => []
  | some nested => [{ model := Model.Course, nested := nested }]

/-- `getAllTeachers`: `include` stays `[]` unless `populate` is truthy
(present and non-empty); otherwise it is built from the split tokens. -/
def teacherInclude (populate : Option String) : List IncludeNode :=
  match populate with
  | none => []
  | some s =>
    if s = "" then [] else teacherFromTokens (splitTrim s)

/-- The loop body of `getAllStudents` over the trimmed tokens, acting on
the include array of the pre-existing `validRelations.CourseId` entry:
token `CourseId` resets it to `[]`; token `TeacherId` pushes
`{ model: Teacher }` (the `validRelations.CourseId` truthiness test is
always true, the entry is created before the loop). -/
def studentCourseNested : List String → List Model → List Model
  | [], acc => acc
  | rel :: rest, acc =>
    let acc := if rel = "CourseId" then [] else acc
    let acc := if rel = "TeacherId" then acc ++ [Model.Teacher] else acc
    studentCourseNested rest acc

/-- `getAllStudents`: `include` stays `[]` unless `populate` is truthy;
otherwise `Object.values(validRelations)` is the one `CourseId` entry
declared before the loop, whose include array the loop has edited. -/
def studentInclude (populate : Option String) : List IncludeNode :=
  match populate with
  | none => []
  | some s =>
    if s = "" then []
    else [{ model := Model.Course
            nested := studentCourseNested (splitTrim s) [] }]

/-- The options object passed to `findAll` by a list endpoint:
`{ limit, offset: (page-1)*limit, order: [['createdAt', sortOrder]],
include }`. -/
structure FetchSpec where
  limit : Int
  offset : Int
  orderKey : String
  orderDir : SortDir
  includeNodes : List IncludeNode
deriving DecidableEq, Repr

/-- The `findAll` options built by `getAllTeachers`. -/
def teacherFetchSpec (q : ListQuery) : FetchSpec :=
  { limit := effLimit q
    offset := (effPage q - 1) * effLimit q
    orderKey := "createdAt"
    orderDir := sortOrder q.sort
    includeNodes := teacherInclude q.populate }

/-- The `findAll` options built by `getAllStudents`. -/
def studentFetchSpec (q : ListQuery) : FetchSpec :=
  { limit := effLimit q
    offset := (effPage q - 1) * effLimit q
    orderKey := "createdAt"
    orderDir := sortOrder q.sort
    includeNodes := studentInclude q.populate }

/-- Whether an include array has a top-level `Course` node. -/
def hasCourse (l : List IncludeNode) : Bool :=
  l.any (fun n => n.model = Model.Course)

/-- A persisted row: its `createdAt` timestamp and its attributes. -/
structure Row (α : Type) where
  createdAt : Nat
  attrs : α

/-- `order: [['createdAt', sortOrder]]` applied to the table's rows. -/
def orderRows (dir : SortDir) (rows : List (Row α)) : List (Row α) :=
  match dir with
  | SortDir.ASC => rows.mergeSort (fun a b => a.createdAt ≤ b.createdAt)
  | SortDir.DESC => rows.mergeSort (fun a b => b.createdAt ≤ a.createdAt)

/-- `Math.ceil(a / b)` on integers, `b ≠ 0` (floating-point exactness is
immaterial at the magnitudes of row counts and page sizes). -/
def mathCeilDiv (a b : Int) : Int :=
  -((-a).fdiv b)

/-- The `meta` object of a list response. -/
structure ListMeta where
  totalItems : Nat
  page : Int
  totalPages : Int
deriving DecidableEq, Repr

/-- The body of a list response: `{ meta, data }`. -/
structure ListResponse (α : Type) where
  meta : ListMeta
  data : List (Row α)

/-- The response assembled by `getAllTeachers`/`getAllStudents` (both
build it identically): `total = count()`, rows fetched by `findAll` with
the computed `limit`, `offset` and `order`, and
`totalPages = Math.ceil(total / limit)`.  The SQL `LIMIT`/`OFFSET` pair
is modelled by `drop`/`take`; the model is meaningful for
`limit > 0` and `offset ≥ 0`, the region where Sequelize accepts the
options (the claims about the response restrict to it). -/
def getAllResponse (q : ListQuery) (rows : List (Row α)) : ListResponse α :=
  let limit := effLimit q
  let page := effPage q
  let total := rows.length
  { meta :=
      { totalItems := total
        page := page
        totalPages := mathCeilDiv total limit }
    data :=
      ((orderRows (sortOrder q.sort) rows).drop ((page - 1) * limit).toNat
        ).take limit.toNat }

/-! ### By-id CRUD handlers

`getTeacherById`/`updateTeacher`/`deleteTeacher` and the student
counterparts are structurally identical; they are modelled once, over a
table of rows keyed by primary key. -/

/-- A table: rows keyed by primary key. -/
abbrev Table (α : Type) := List (Nat × α)

/-- `Model.findByPk(id)`: the first row whose primary key matches. -/
def findByPk (db : Table α) (id : Nat) : Option α :=
  (List.find? (fun r => r.1 = id) db).map Prod.snd

/-- An HTTP response as the handlers produce it: a status code and
either an entity body or a message body. -/
inductive Resp (α : Type) where
  | entity (status : Nat) (body : α)
  | message (status : Nat) (text : String)
deriving DecidableEq, Repr

/-- `getById`: look up by primary key; absent ⇒
`404 { message: 'Not found' }`, else `200` with the entity. -/
def getByIdHandler (db : Table α) (id : Nat) : Resp α :=
  match findByPk db id with
  | none => Resp.message 404 "Not found"
  | some a => Resp.entity 200 a

/-- `update`: look up by primary key; absent ⇒ 404 and the table is
untouched; else merge the request body into the row (`patch`), persist,
and return the updated entity. -/
def updateHandler (db : Table α) (id : Nat) (patch : α → α) :
    Table α × Resp α :=
  match findByPk db id with
  | none => (db, Resp.message 404 "Not found")
  | some a =>
    (db.map (fun r => if r.1 = id then (r.1, patch r.2) else r),
      Resp.entity 200 (patch a))

/-- `delete`: look up by primary key; absent ⇒ 404 and the table is
untouched; else `destroy()` the found row and return
`{ message: 'Deleted' }`. -/
def deleteHandler (db : Table α) (id : Nat) : Table α × Resp α :=
  match findByPk db id with
  | none => (db, Resp.message 404 "Not found")
  | some _ =>
    (db.eraseP (fun r => r.1 = id), Resp.message 200 "Deleted")

/-! ### Auth: `login` (src/controllers/auth.controller.js)

`bcrypt.compare` is an external library call, modelled as an abstract
predicate `compare plaintext storedHash`; `jwt.sign` is modelled by
recording the claims object, the secret and the `expiresIn` option that
the source passes to it. -/

/-- A stored user record (`db.User`): password holds the bcrypt hash. -/
structure User where
  id : Nat
  name : String
  email : String
  password : String
deriving DecidableEq, Repr

/-- The environment configuration the auth controller reads. -/
structure Env where
  JWT_SECRET : Option String
  JWT_EXPIRES_IN : Option String

/-- JavaScript `s || d` on a possibly-undefined string: `undefined` and
`''` are falsy. -/
def jsOrStr (v : Option String) (d : String) : String :=
  match v with
  | none => d
  | some s => if s = "" then d else s

/-- What `jwt.sign({ userId, email }, secret, { expiresIn })` receives. -/
structure SignedToken where
  userId : Nat
  email : String
  secret : Option String
  expiresIn : String
deriving DecidableEq, Repr

/-- Result of the `login` handler: `401 { error: 'Invalid email or
password' }`, or `200 { token }`. -/
inductive LoginResult where
  | unauthorized
  | token (t : SignedToken)
deriving DecidableEq, Repr

/-- The HTTP status of a login result. -/
def loginStatus : LoginResult → Nat
  | LoginResult.unauthorized => 401
  | LoginResult.token _ => 200

/-- `login`: `findOne({ where: { email } })`; 401 if no user or
`bcrypt.compare(password, user.password)` fails; else
`jwt.sign({ userId: user.id, email: user.email }, JWT_SECRET,
{ expiresIn: JWT_EXPIRES_IN || '1h' })`. -/
def login (users : List User) (compare : String → String → Bool)
    (env : Env) (email password : String) : LoginResult :=
  match List.find? (fun u => u.email = email) users with
  | none => LoginResult.unauthorized
  | some user =>
    if compare password user.password then
      LoginResult.token
        { userId := user.id
          email := user.email
          secret := env.JWT_SECRET
          expiresIn := jsOrStr env.JWT_EXPIRES_IN "1h" }
    else LoginResult.unauthorized

/-- A default list query: every parameter absent. -/
def qAbsent : ListQuery :=
  { page := none, limit := none, sort := none, populate := none }

/-- The recognized `populate` tokens of the Teacher listing. -/
def recognizedTeacherToken (t : String) : Bool :=
  t = "CourseId" || t = "StudentId"

/-! ### Helper lemmas -/

/-- Closed form of the Teacher include construction: the `StudentId`
token forces `[Student]` inside Course (the push lands on a fresh or
pre-existing entry either way), `CourseId` alone gives an empty Course
node, and nothing otherwise. -/
theorem teacherFromTokens_eq (l : List String) :
    teacherFromTokens l =
      if l.contains "StudentId" then
        [{ model := Model.Course, nested := [Model.Student] }]
      else if l.contains "CourseId" then
        [{ model := Model.Course, nested := [] }]
      else [] := by
  unfold teacherFromTokens
  cases hc : l.contains "CourseId" <;> cases hs : l.contains "StudentId" <;>
    simp [hc, hs]

/-- The `populate`-truthiness guard of `getAllTeachers` is redundant:
the empty string splits into the single unrecognized token `""`, which
builds the empty include array anyway. -/
theorem teacherInclude_some (s : String) :
    teacherInclude (some s) = teacherFromTokens (splitTrim s) := by
  show (if s = "" then [] else teacherFromTokens (splitTrim s)) = _
  split
  · rename_i hs
    subst hs
    decide
  · rfl

/-- `findByPk` misses exactly when no row carries the key. -/
theorem findByPk_eq_none (db : Table α) (id : Nat) :
    findByPk db id = none ↔ ∀ r ∈ db, r.1 ≠ id := by
  simp [findByPk, List.find?_eq_none]

/-- Erasing the matching row from a table with no duplicate keys makes
the key unfindable. -/
theorem findByPk_eraseP (db : Table α) (id : Nat)
    (hnd : (db.map Prod.fst).Nodup) :
    findByPk (db.eraseP (fun r => r.1 = id)) id = none := by
  induction db with
  | nil => rfl
  | cons r rs ih =>
    simp only [List.map_cons, List.nodup_cons, List.mem_map] at hnd
    by_cases hr : r.1 = id
    · rw [List.eraseP_cons, show (decide (r.1 = id)) = true by simp [hr]]
      simp only [cond_true]
      rw [findByPk_eq_none]
      intro x hx
      intro hxid
      exact hnd.1 ⟨x, hx, by rw [hxid, hr]⟩
    · rw [List.eraseP_cons, show (decide (r.1 = id)) = false by simp [hr]]
      simp only [cond_false]
      unfold findByPk
      rw [List.find?_cons, show (decide (r.1 = id)) = false by simp [hr]]
      exact ih hnd.2

/-- `Math.ceil(n / m)` agrees with the natural-number ceiling-division
formula for a nonnegative numerator and positive denominator. -/
theorem mathCeilDiv_cast (n m : Nat) (hm : 0 < m) :
    mathCeilDiv (n : Int) (m : Int) = (((n + m - 1) / m : Nat) : Int) := by
  unfold mathCeilDiv
  rw [Int.fdiv_eq_ediv _ (by positivity)]
  have hm' : (0 : Int) < (m : Int) := by exact_mod_cast hm
  set k : Nat := (n + m - 1) / m with hk
  have hdm : m * ((n + m - 1) / m) + (n + m - 1) % m = n + m - 1 :=
    Nat.div_add_mod (n + m - 1) m
  have hmod : (n + m - 1) % m < m := Nat.mod_lt _ hm
  rw [← hk] at hdm
  have h1 : n ≤ m * k := by omega
  have h2 : m * k < n + m := by omega
  have h1' : (n : Int) ≤ (m : Int) * (k : Int) := by exact_mod_cast h1
  have h2' : (m : Int) * (k : Int) < (n : Int) + (m : Int) := by exact_mod_cast h2
  have hle : -(k : Int) ≤ (-(n : Int)) / (m : Int) :=
    (Int.le_ediv_iff_mul_le hm').mpr (by linarith)
  have hlt : (-(n : Int)) / (m : Int) < -(k : Int) + 1 :=
    (Int.ediv_lt_iff_lt_mul hm').mpr (by linarith)
  set X : Int := (-(n : Int)) / (m : Int) with hX
  omega

/-- The Student listing's include array has a Course node exactly when
`populate` is a present, non-empty string. -/
theorem student_hasCourse_iff (p : Option String) :
    hasCourse (studentInclude p) = true ↔ ∃ s, p = some s ∧ s ≠ "" := by
  constructor
  · intro h
    match p with
    | none => simp [studentInclude, hasCourse] at h
    | some s =>
      refine ⟨s, rfl, ?_⟩
      intro hs
      subst hs
      simp [studentInclude, hasCourse] at h
  · rintro ⟨s, rfl, hs⟩
    simp [studentInclude, hasCourse, hs]

/-! ### Claims -/

/-- C9: for the Student list operation, the Course include node is
present exactly when the `populate` query parameter is a non-empty
string — even one containing only unrecognized tokens — and the include
list is empty when `populate` is absent or empty. -/
theorem c9_student_course_iff_truthy_populate (p : Option String) :
    (hasCourse (studentInclude p) = true ↔ ∃ s, p = some s ∧ s ≠ "") ∧
    (p = none ∨ p = some "" → studentInclude p = []) := by
  refine ⟨student_hasCourse_iff p, ?_⟩
  rintro (rfl | rfl) <;> simp [studentInclude]

/-- C9 witness: `populate=zzz` (only unrecognized tokens) still yields a
Course include on the Student listing; absent `populate` yields none. -/
theorem c9_witness :
    hasCourse (studentInclude (some "zzz")) = true ∧
    studentInclude none = [] :=
  ⟨(c9_student_course_iff_truthy_populate (some "zzz")).1.mpr
      ⟨"zzz", rfl, by decide⟩,
   (c9_student_course_iff_truthy_populate none).2 (Or.inl rfl)⟩

/-- C1 counterexample: the claim that the Student listing's fetch spec
includes Course for every request fails when `populate` is absent — the
include array is then left empty by the `if (populate)` guard. -/
theorem c1_counterexample :
    ¬ (∀ (q : ListQuery), hasCourse (studentFetchSpec q).includeNodes = true) :=
  fun h => absurd (h qAbsent) (by decide)

/-- Membership form of the Teacher include construction. -/
theorem teacherFromTokens_mem_eq (l : List String) :
    teacherFromTokens l =
      if "StudentId" ∈ l then
        [{ model := Model.Course, nested := [Model.Student] }]
      else if "CourseId" ∈ l then
        [{ model := Model.Course, nested := [] }]
      else [] := by
  rw [teacherFromTokens_eq]
  by_cases hs : "StudentId" ∈ l <;> by_cases hc : "CourseId" ∈ l <;>
    simp [hs, hc]

/-- The Teacher listing's include array has a Course node exactly when
`populate` is present and a trimmed token is recognized. -/
theorem teacher_hasCourse_iff (p : Option String) :
    hasCourse (teacherInclude p) = true ↔
      ∃ s, p = some s ∧ (splitTrim s).any recognizedTeacherToken = true := by
  constructor
  · intro h
    match p with
    | none => simp [teacherInclude, hasCourse] at h
    | some s =>
      refine ⟨s, rfl, ?_⟩
      rw [teacherInclude_some, teacherFromTokens_mem_eq] at h
      by_cases hst : "StudentId" ∈ splitTrim s
      · exact List.any_eq_true.mpr ⟨"StudentId", hst, by decide⟩
      · rw [if_neg hst] at h
        by_cases hc : "CourseId" ∈ splitTrim s
        · exact List.any_eq_true.mpr ⟨"CourseId", hc, by decide⟩
        · rw [if_neg hc] at h
          simp [hasCourse] at h
  · rintro ⟨s, rfl, hany⟩
    rw [teacherInclude_some, teacherFromTokens_mem_eq]
    obtain ⟨t, ht, hrec⟩ := List.any_eq_true.mp hany
    have ht2 : t = "CourseId" ∨ t = "StudentId" := by
      simpa [recognizedTeacherToken] using hrec
    by_cases hst : "StudentId" ∈ splitTrim s
    · simp [hst, hasCourse]
    · rw [if_neg hst]
      have hc : "CourseId" ∈ splitTrim s := by
        rcases ht2 with rfl | rfl
        · exact ht
        · exact absurd ht hst
      rw [if_pos hc]
      simp [hasCourse]

/-- C1 amended: the Teacher listing includes Course exactly when
`populate` is present and has a recognized trimmed token; the Student
listing includes Course exactly when `populate` is present and
non-empty (not unconditionally, as the claim stated). -/
theorem c1_amended (q : ListQuery) :
    (hasCourse (teacherFetchSpec q).includeNodes = true ↔
      ∃ s, q.populate = some s ∧
        (splitTrim s).any recognizedTeacherToken = true) ∧
    (hasCourse (studentFetchSpec q).includeNodes = true ↔
      ∃ s, q.populate = some s ∧ s ≠ "") :=
  ⟨teacher_hasCourse_iff q.populate, student_hasCourse_iff q.populate⟩

/-- C1 witness for the amended claim, at `populate=TeacherId` on the
Student listing (the spec's own example) and `populate=StudentId` on the
Teacher listing. -/
theorem c1_witness :
    hasCourse (studentFetchSpec
      { page := none, limit := none, sort := none,
        populate := some "TeacherId" }).includeNodes = true ∧
    hasCourse (teacherFetchSpec
      { page := none, limit := none, sort := none,
        populate := some "StudentId" }).includeNodes = true :=
  ⟨(c1_amended _).2.mpr ⟨"TeacherId", rfl, by decide⟩,
   (c1_amended _).1.mpr ⟨"StudentId", rfl, by decide⟩⟩

/-- C2 counterexample: on the Student listing the token order does
matter (`CourseId,TeacherId` keeps the nested Teacher, the reverse
order resets it away), and a repeated `TeacherId` token duplicates the
nested Teacher node — even though the two token lists of the first pair
are permutations of each other. -/
theorem c2_counterexample :
    studentInclude (some "CourseId,TeacherId") ≠
      studentInclude (some "TeacherId,CourseId") ∧
    studentInclude (some "TeacherId,TeacherId") ≠
      studentInclude (some "TeacherId") ∧
    (splitTrim "CourseId,TeacherId").Perm (splitTrim "TeacherId,CourseId") := by
  decide

/-- C2 amended: on the Teacher listing only, the include tree is
invariant under permutation of the trimmed tokens and under repeating a
token; the Student listing has neither property. -/
theorem c2_amended :
    (∀ (s1 s2 : String), (splitTrim s1).Perm (splitTrim s2) →
      teacherInclude (some s1) = teacherInclude (some s2)) ∧
    (∀ (t : String) (l : List String),
      teacherFromTokens (t :: t :: l) = teacherFromTokens (t :: l)) := by
  constructor
  · intro s1 s2 hperm
    rw [teacherInclude_some, teacherInclude_some,
      teacherFromTokens_mem_eq, teacherFromTokens_mem_eq]
    by_cases hs : "StudentId" ∈ splitTrim s1
    · rw [if_pos hs, if_pos (hperm.mem_iff.mp hs)]
    · rw [if_neg hs, if_neg (fun h => hs (hperm.mem_iff.mpr h))]
      by_cases hc : "CourseId" ∈ splitTrim s1
      · rw [if_pos hc, if_pos (hperm.mem_iff.mp hc)]
      · rw [if_neg hc, if_neg (fun h => hc (hperm.mem_iff.mpr h))]
  · intro t l
    rw [teacherFromTokens_mem_eq, teacherFromTokens_mem_eq]
    have hdup : ∀ a : String, a ∈ t :: t :: l ↔ a ∈ t :: l := by
      intro a
      constructor
      · intro ha
        rcases List.mem_cons.mp ha with h | h
        · exact List.mem_cons.mpr (Or.inl h)
        · exact h
      · exact List.mem_cons_of_mem t
    by_cases hs : "StudentId" ∈ t :: l
    · rw [if_pos ((hdup _).mpr hs), if_pos hs]
    · rw [if_neg (fun h => hs ((hdup _).mp h)), if_neg hs]
      by_cases hc : "CourseId" ∈ t :: l
      · rw [if_pos ((hdup _).mpr hc), if_pos hc]
      · rw [if_neg (fun h => hc ((hdup _).mp h)), if_neg hc]

/-- C2 witness: two permuted Teacher `populate` strings build the same
include array, and a duplicated token list builds the same array as the
deduplicated one. -/
theorem c2_witness :
    teacherInclude (some "CourseId, StudentId") =
      teacherInclude (some "StudentId,CourseId") ∧
    teacherFromTokens ["CourseId", "CourseId", "StudentId"] =
      teacherFromTokens ["CourseId", "StudentId"] :=
  ⟨c2_amended.1 "CourseId, StudentId" "StudentId,CourseId" (by decide),
   c2_amended.2 "CourseId" ["StudentId"]⟩

/-- C3: on the Teacher listing, token `CourseId` yields a Course include
node; token `StudentId` yields a Course node with Student nested inside
(creating the Course node even when `CourseId` is absent); a token list
with neither recognized token yields no includes, and prepending an
unrecognized token changes nothing. -/
theorem c3_teacher_token_mapping (s : String) :
    ("CourseId" ∈ splitTrim s →
      hasCourse (teacherInclude (some s)) = true) ∧
    ("StudentId" ∈ splitTrim s →
      ∃ nested, teacherInclude (some s) =
        [{ model := Model.Course, nested := nested }] ∧
        Model.Student ∈ nested) ∧
    ((∀ t ∈ splitTrim s, t ≠ "CourseId" ∧ t ≠ "StudentId") →
      teacherInclude (some s) = []) ∧
    (∀ t, t ≠ "CourseId" → t ≠ "StudentId" →
      teacherFromTokens (t :: splitTrim s) =
        teacherFromTokens (splitTrim s)) := by
  refine ⟨?_, ?_, ?_, ?_⟩
  · intro hc
    exact teacher_hasCourse_iff (some s) |>.mpr
      ⟨s, rfl, List.any_eq_true.mpr ⟨"CourseId", hc, by decide⟩⟩
  · intro hst
    rw [teacherInclude_some, teacherFromTokens_mem_eq, if_pos hst]
    exact ⟨[Model.Student], rfl, by decide⟩
  · intro hnone
    rw [teacherInclude_some, teacherFromTokens_mem_eq]
    rw [if_neg (fun h => (hnone _ h).2 rfl),
      if_neg (fun h => (hnone _ h).1 rfl)]
  · intro t htc hts
    rw [teacherFromTokens_mem_eq, teacherFromTokens_mem_eq]
    have hmS : "StudentId" ∈ t :: splitTrim s ↔ "StudentId" ∈ splitTrim s := by
      rw [List.mem_cons]
      constructor
      · rintro (h | h)
        · exact absurd h.symm hts
        · exact h
      · exact Or.inr
    have hmC : "CourseId" ∈ t :: splitTrim s ↔ "CourseId" ∈ splitTrim s := by
      rw [List.mem_cons]
      constructor
      · rintro (h | h)
        · exact absurd h.symm htc
        · exact h
      · exact Or.inr
    by_cases hs1 : "StudentId" ∈ splitTrim s
    · rw [if_pos (hmS.mpr hs1), if_pos hs1]
    · rw [if_neg (fun h => hs1 (hmS.mp h)), if_neg hs1]
      by_cases hc1 : "CourseId" ∈ splitTrim s
      · rw [if_pos (hmC.mpr hc1), if_pos hc1]
      · rw [if_neg (fun h => hc1 (hmC.mp h)), if_neg hc1]

/-- C3 witness: `populate=StudentId` alone creates the Course node with
Student nested; an unrecognized-only `populate` builds no includes. -/
theorem c3_witness :
    (∃ nested, teacherInclude (some "StudentId") =
      [{ model := Model.Course, nested := nested }] ∧
      Model.Student ∈ nested) ∧
    teacherInclude (some "zzz, yyy") = [] ∧
    teacherFromTokens ("zzz" :: splitTrim "CourseId") =
      teacherFromTokens (splitTrim "CourseId") :=
  ⟨(c3_teacher_token_mapping "StudentId").2.1 (by decide),
   (c3_teacher_token_mapping "zzz, yyy").2.2.1 (by decide),
   (c3_teacher_token_mapping "CourseId").2.2.2 "zzz" (by decide) (by decide)⟩

/-- C4 counterexample: `limit=0` parses to the integer 0 — a numeric
value — yet the effective limit is the default 10, not the parsed
integer, because `parseInt(...) || 10` treats 0 as falsy.  So the
effective limit is not always the parsed integer, and the default does
not apply only when `limit` is absent or non-numeric. -/
theorem c4_counterexample :
    ¬ (∀ (q : ListQuery) (n : Int),
        parseIntJS q.limit = some n → effLimit q = n) :=
  fun h =>
    absurd (h ⟨none, some "0", none, none⟩ 0 (by decide)) (by decide)

/-- C4 amended: the effective limit is the parsed integer of `limit`,
defaulting to 10 exactly when `limit` is absent, non-numeric, or parses
to 0; the effective page likewise with default 1; and both fetch specs
use these values with offset `(page - 1) * limit`. -/
theorem c4_amended (q : ListQuery) :
    (parseIntJS q.limit = none ∨ parseIntJS q.limit = some 0 →
      effLimit q = 10) ∧
    (∀ n : Int, parseIntJS q.limit = some n → n ≠ 0 → effLimit q = n) ∧
    (parseIntJS q.page = none ∨ parseIntJS q.page = some 0 →
      effPage q = 1) ∧
    (∀ n : Int, parseIntJS q.page = some n → n ≠ 0 → effPage q = n) ∧
    (teacherFetchSpec q).limit = effLimit q ∧
    (studentFetchSpec q).limit = effLimit q ∧
    (teacherFetchSpec q).offset = (effPage q - 1) * effLimit q ∧
    (studentFetchSpec q).offset = (effPage q - 1) * effLimit q := by
  refine ⟨?_, ?_, ?_, ?_, rfl, rfl, rfl, rfl⟩
  · rintro (h | h) <;> simp [effLimit, jsOrInt, h]
  · intro n h hn
    simp [effLimit, jsOrInt, h, hn]
  · rintro (h | h) <;> simp [effPage, jsOrInt, h]
  · intro n h hn
    simp [effPage, jsOrInt, h, hn]

/-- C4 witness: `limit=25&page=3` gives effective limit 25, page 3, and
offset 50 on the Teacher fetch spec; an absent `limit` gives 10. -/
theorem c4_witness :
    effLimit ⟨some "3", some "25", none, none⟩ = 25 ∧
    effPage ⟨some "3", some "25", none, none⟩ = 3 ∧
    effLimit qAbsent = 10 := by
  refine ⟨?_, ?_, ?_⟩
  · exact (c4_amended _).2.1 25 (by decide) (by decide)
  · exact (c4_amended _).2.2.2.1 3 (by decide) (by decide)
  · exact (c4_amended qAbsent).1 (Or.inl (by decide))

/-- C5: on both list operations the fetch spec's order direction is
descending iff the raw `sort` parameter equals `"desc"`
(case-sensitively; any other value, including absent, is ascending),
and the ordering key is always the creation timestamp. -/
theorem c5_sort_direction (q : ListQuery) :
    ((teacherFetchSpec q).orderDir = SortDir.DESC ↔ q.sort = some "desc") ∧
    (teacherFetchSpec q).orderKey = "createdAt" ∧
    ((studentFetchSpec q).orderDir = SortDir.DESC ↔ q.sort = some "desc") ∧
    (studentFetchSpec q).orderKey = "createdAt" := by
  refine ⟨?_, rfl, ?_, rfl⟩ <;>
    · show sortOrder q.sort = SortDir.DESC ↔ q.sort = some "desc"
      unfold sortOrder
      split <;> rename_i h <;> simp [h]

/-- C5 witness: `sort=desc` gives DESC, `sort=DESC` (wrong case) gives
ASC, on the Teacher fetch spec whose order key is `createdAt`. -/
theorem c5_witness :
    (teacherFetchSpec ⟨none, none, some "desc", none⟩).orderDir =
      SortDir.DESC ∧
    (teacherFetchSpec ⟨none, none, some "DESC", none⟩).orderDir ≠
      SortDir.DESC ∧
    (studentFetchSpec qAbsent).orderKey = "createdAt" := by
  refine ⟨?_, ?_, ?_⟩
  · exact (c5_sort_direction _).1.mpr rfl
  · intro h
    exact absurd ((c5_sort_direction _).1.mp h) (by decide)
  · exact (c5_sort_direction qAbsent).2.2.2

/-- C10: a `limit` parameter that parses to the integer 0 yields the
default effective limit 10, and a `page` parameter that parses to 0
yields the default effective page 1 — zero-valued numeric inputs behave
like absent ones. -/
theorem c10_zero_behaves_like_absent (q : ListQuery) :
    (parseIntJS q.limit = some 0 → effLimit q = effLimit qAbsent) ∧
    (parseIntJS q.page = some 0 → effPage q = effPage qAbsent) ∧
    effLimit qAbsent = 10 ∧ effPage qAbsent = 1 := by
  refine ⟨?_, ?_, rfl, rfl⟩
  · intro h
    have h10 : effLimit qAbsent = 10 := rfl
    rw [h10]
    simp [effLimit, jsOrInt, h]
  · intro h
    have h1 : effPage qAbsent = 1 := rfl
    rw [h1]
    simp [effPage, jsOrInt, h]

/-- C10 witness: `limit=0&page=0` gives the defaults 10 and 1. -/
theorem c10_witness :
    effLimit ⟨some "0", some "0", none, none⟩ = 10 ∧
    effPage ⟨some "0", some "0", none, none⟩ = 1 := by
  have h := c10_zero_behaves_like_absent ⟨some "0", some "0", none, none⟩
  exact ⟨(h.1 (by decide)).trans h.2.2.1, (h.2.1 (by decide)).trans h.2.2.2⟩

/-- C6: for every list request whose effective limit is positive and
effective page at least 1, the response's data array has at most
`limit` items, `meta.totalItems` is the full row count, and
`meta.totalPages` is the ceiling of `totalItems / limit`. -/
theorem c6_pagination_meta {α : Type} (q : ListQuery) (rows : List (Row α))
    (hl : 0 < effLimit q) (_hp : 1 ≤ effPage q) :
    (getAllResponse q rows).data.length ≤ (effLimit q).toNat ∧
    (getAllResponse q rows).meta.totalItems = rows.length ∧
    (getAllResponse q rows).meta.totalPages =
      (((rows.length + (effLimit q).toNat - 1) / (effLimit q).toNat : Nat) :
        Int) := by
  refine ⟨?_, rfl, ?_⟩
  · show (((orderRows (sortOrder q.sort) rows).drop
      ((effPage q - 1) * effLimit q).toNat).take (effLimit q).toNat).length ≤
        (effLimit q).toNat
    rw [List.length_take]
    exact min_le_left _ _
  · show mathCeilDiv rows.length (effLimit q) = _
    have hcast : ((effLimit q).toNat : Int) = effLimit q :=
      Int.toNat_of_nonneg hl.le
    rw [← hcast]
    exact mathCeilDiv_cast rows.length (effLimit q).toNat (by omega)

/-- C6 witness: the default query over a three-row table with limit 2
on page 1 returns at most 2 rows, reports 3 total items and
`ceil(3/2) = 2` total pages. -/
theorem c6_witness :
    (0 : Int) < effLimit ⟨some "1", some "2", none, none⟩ ∧
    (1 : Int) ≤ effPage ⟨some "1", some "2", none, none⟩ ∧
    ((getAllResponse ⟨some "1", some "2", none, none⟩
        ([⟨1, ()⟩, ⟨2, ()⟩, ⟨3, ()⟩] : List (Row Unit))).data.length ≤
      (effLimit ⟨some "1", some "2", none, none⟩).toNat ∧
    (getAllResponse ⟨some "1", some "2", none, none⟩
        ([⟨1, ()⟩, ⟨2, ()⟩, ⟨3, ()⟩] : List (Row Unit))).meta.totalItems = 3 ∧
    (getAllResponse ⟨some "1", some "2", none, none⟩
        ([⟨1, ()⟩, ⟨2, ()⟩, ⟨3, ()⟩] : List (Row Unit))).meta.totalPages =
      ((((3 : Nat) + (effLimit ⟨some "1", some "2", none, none⟩).toNat - 1) /
        (effLimit ⟨some "1", some "2", none, none⟩).toNat : Nat) : Int)) :=
  ⟨by decide, by decide,
   c6_pagination_meta ⟨some "1", some "2", none, none⟩
     [⟨1, ()⟩, ⟨2, ()⟩, ⟨3, ()⟩] (by decide) (by decide)⟩

/-- C7: for getById, update and delete on an id with no matching row,
the handler answers 404 with message "Not found" and leaves the table
unchanged; when the row exists, delete answers the confirmation message
"Deleted" and the row is gone (for a table without duplicate keys). -/
theorem c7_crud_not_found {α : Type} (db : Table α) (id : Nat)
    (patch : α → α) :
    (findByPk db id = none →
      getByIdHandler db id = Resp.message 404 "Not found" ∧
      updateHandler db id patch = (db, Resp.message 404 "Not found") ∧
      deleteHandler db id = (db, Resp.message 404 "Not found")) ∧
    (∀ a, findByPk db id = some a →
      (deleteHandler db id).2 = Resp.message 200 "Deleted" ∧
      ((db.map Prod.fst).Nodup →
        findByPk (deleteHandler db id).1 id = none)) := by
  constructor
  · intro hnone
    refine ⟨?_, ?_, ?_⟩ <;>
      simp [getByIdHandler, updateHandler, deleteHandler, hnone]
  · intro a hsome
    constructor
    · simp [deleteHandler, hsome]
    · intro hnd
      have : (deleteHandler db id).1 = db.eraseP (fun r => r.1 = id) := by
        simp [deleteHandler, hsome]
      rw [this]
      exact findByPk_eraseP db id hnd

/-- C7 witness: on the one-row table `[(1, 0)]`, id 2 is 404 "Not
found" for all three handlers, and deleting id 1 answers "Deleted" and
removes the row. -/
theorem c7_witness :
    (getByIdHandler ([(1, 0)] : Table Nat) 2 = Resp.message 404 "Not found" ∧
      updateHandler ([(1, 0)] : Table Nat) 2 (fun a => a) =
        ([(1, 0)], Resp.message 404 "Not found") ∧
      deleteHandler ([(1, 0)] : Table Nat) 2 =
        ([(1, 0)], Resp.message 404 "Not found")) ∧
    (deleteHandler ([(1, 0)] : Table Nat) 1).2 = Resp.message 200 "Deleted" ∧
    findByPk (deleteHandler ([(1, 0)] : Table Nat) 1).1 1 = none :=
  ⟨(c7_crud_not_found ([(1, 0)] : Table Nat) 2 (fun a => a)).1 (by decide),
   ((c7_crud_not_found ([(1, 0)] : Table Nat) 1 (fun a => a)).2 0
     (by decide)).1,
   ((c7_crud_not_found ([(1, 0)] : Table Nat) 1 (fun a => a)).2 0
     (by decide)).2 (by decide)⟩

/-- C8: login answers 401 exactly when the email lookup misses or the
password comparison fails; on success it answers the signed token whose
claims are the found user's id and email, with expiry from
configuration and defaulting to "1h" when unset. -/
theorem c8_login_behavior (users : List User)
    (compare : String → String → Bool) (env : Env)
    (email password : String) :
    (loginStatus (login users compare env email password) = 401 ↔
      List.find? (fun u => u.email = email) users = none ∨
      ∃ u, List.find? (fun u => u.email = email) users = some u ∧
        compare password u.password = false) ∧
    (∀ u, List.find? (fun u => u.email = email) users = some u →
      compare password u.password = true →
      login users compare env email password =
        LoginResult.token
          { userId := u.id
            email := u.email
            secret := env.JWT_SECRET
            expiresIn := jsOrStr env.JWT_EXPIRES_IN "1h" }) ∧
    (env.JWT_EXPIRES_IN = none → jsOrStr env.JWT_EXPIRES_IN "1h" = "1h") := by
  refine ⟨?_, ?_, ?_⟩
  · unfold login
    cases hfind : List.find? (fun u => u.email = email) users with
    | none => simp [loginStatus]
    | some u =>
      cases hcmp : compare password u.password with
      | false => simp [loginStatus, hcmp]
      | true => simp [loginStatus, hcmp]
  · intro u hfind hcmp
    unfold login
    rw [hfind]
    simp [hcmp]
  · intro h
    simp [jsOrStr, h]

/-- C8 witness: a matching email with the right password yields the
token carrying the user's id and email and the default "1h" expiry; a
wrong password yields 401. -/
theorem c8_witness :
    login [⟨1, "n", "a@b", "H"⟩] (fun p h => p == "pw" && h == "H")
      ⟨some "sec", none⟩ "a@b" "pw" =
      LoginResult.token
        { userId := 1, email := "a@b", secret := some "sec",
          expiresIn := "1h" } ∧
    loginStatus (login [⟨1, "n", "a@b", "H"⟩]
      (fun p h => p == "pw" && h == "H") ⟨some "sec", none⟩ "a@b" "xx") =
      401 :=
  ⟨(c8_login_behavior [⟨1, "n", "a@b", "H"⟩]
      (fun p h => p == "pw" && h == "H") ⟨some "sec", none⟩ "a@b" "pw").2.1
      ⟨1, "n", "a@b", "H"⟩ (by decide) (by decide),
   (c8_login_behavior [⟨1, "n", "a@b", "H"⟩]
      (fun p h => p == "pw" && h == "H") ⟨some "sec", none⟩ "a@b" "xx").1.mpr
      (Or.inr ⟨⟨1, "n", "a@b", "H"⟩, by decide, by decide⟩)⟩

end SchoolApi
